import Mathlib

/-!
Verification of the agent workflow engine and the hybrid retrieval subsystem
of the dashboardx repository.

The definitions below are a shallow embedding of:
  * `backend/app/agents/state.py`   (AgentState, create_initial_state)
  * `backend/app/agents/nodes.py`   (the seven workflow nodes)
  * `backend/app/agents/graph.py`   (conditional edges and the compiled graph)
  * `backend/app/rag/hybrid_retrieval.py` (HybridRetriever)

External collaborators (the LLM, the embedding model, the cross-encoder, the
vector-search tool, the BM25 idf table of the rank_bm25 library) are modelled
as parameters: a node that calls such a collaborator receives the outcome of
that call (a value, or the message of a raised exception) as an input.
Machine floats of the source are modelled as exact rationals.
-/

namespace Dashboard

/-! ## Data model (state.py)

A retrieved document, as produced by the vector-search tool: the source keeps
dicts with keys text and score (metadata is never inspected by the workflow
and is omitted).  Scores are rationals in place of Python floats. -/

structure Doc where
  text : String
  score : ℚ
deriving DecidableEq, Repr

/-- Embedding of the `AgentState` TypedDict of state.py restricted to the
fields read or written by the workflow nodes and edges.  `messages`,
`confidence_score`, `visualization_data`, `chart_type`, `started_at` and
`ui_state` are carried by the source but never branch the control flow and no
claim mentions them, so they are omitted.  `completed_at` holds a datetime in
the source; only its presence is ever observed, so it is modelled as
`Option Unit`. -/
structure AgentState where
  tenant_id : String
  user_id : String
  session_id : String
  user_query : String
  query_intent : Option String
  rewritten_query : Option String
  needs_rewrite : Bool
  retrieved_documents : List Doc
  relevance_scores : List ℚ
  reranked_documents : Option (List Doc)
  agent_thoughts : List String
  current_step : String
  tools_used : List String
  final_response : Option String
  citations : List Doc
  completed_at : Option Unit
  error : Option String
  retry_count : ℕ
deriving DecidableEq, Repr

/-- Embedding of a partial state update returned by a node.  A `none` field is
absent from the returned dict; a `some` field is present and replaces the
state field on merge (LangGraph semantics), except `agent_thoughts` and
`tools_used` which are annotated with `operator.add` and are concatenated.
The `error` field is doubly optional because `retrieval_node` writes
`result.get("error")`, which can itself be Python `None`. -/
structure NodeUpdate where
  query_intent : Option String := none
  rewritten_query : Option String := none
  needs_rewrite : Option Bool := none
  retrieved_documents : Option (List Doc) := none
  relevance_scores : Option (List ℚ) := none
  reranked_documents : Option (List Doc) := none
  agent_thoughts : List String := []
  tools_used : List String := []
  final_response : Option String := none
  citations : Option (List Doc) := none
  current_step : Option String := none
  retry_count : Option ℕ := none
  completed_at : Option Unit := none
  error : Option (Option String) := none
deriving Repr

/-- LangGraph merge of the partial update of a node into the state: replaced
fields take the returned value when present, `operator.add` fields are
concatenated. -/
def applyUpdate (st : AgentState) (u : NodeUpdate) : AgentState where
  tenant_id := st.tenant_id
  user_id := st.user_id
  session_id := st.session_id
  user_query := st.user_query
  query_intent := u.query_intent.orElse fun _ => st.query_intent
  rewritten_query := u.rewritten_query.orElse fun _ => st.rewritten_query
  needs_rewrite := u.needs_rewrite.getD st.needs_rewrite
  retrieved_documents := u.retrieved_documents.getD st.retrieved_documents
  relevance_scores := u.relevance_scores.getD st.relevance_scores
  reranked_documents := u.reranked_documents.orElse fun _ => st.reranked_documents
  agent_thoughts := st.agent_thoughts ++ u.agent_thoughts
  current_step := u.current_step.getD st.current_step
  tools_used := st.tools_used ++ u.tools_used
  final_response := u.final_response.orElse fun _ => st.final_response
  citations := u.citations.getD st.citations
  completed_at := u.completed_at.orElse fun _ => st.completed_at
  error := u.error.getD st.error
  retry_count := u.retry_count.getD st.retry_count

/-- Embedding of `create_initial_state` of state.py (for the modelled
fields). -/
def create_initial_state (tenant_id user_id session_id user_query : String) :
    AgentState where
  tenant_id := tenant_id
  user_id := user_id
  session_id := session_id
  user_query := user_query
  query_intent := none
  rewritten_query := none
  needs_rewrite := false
  retrieved_documents := []
  relevance_scores := []
  reranked_documents := none
  agent_thoughts := []
  current_step := "initialized"
  tools_used := []
  final_response := none
  citations := []
  completed_at := none
  error := none
  retry_count := 0

/-! ## Workflow nodes (nodes.py)

Each node wraps its body in try/except.  The interaction of the body with an
external collaborator (LLM call, tool call) is an input of the node model;
a `raised`/`error` outcome selects the except branch of the source. -/

/-- Outcome of the LLM call plus JSON parsing inside `query_analysis_node`:
the parsed analysis, a JSON parse failure (the inner except branch), or an
exception raised by the call (the outer except branch). -/
inductive AnalyzeOutcome where
  | parsed (intent : String) (needsRewrite : Bool) (reasoning : String)
  | parseFailed
  | raised (msg : String)
deriving DecidableEq, Repr

/-- Embedding of `query_analysis_node`.  Note that the except branch does NOT
set the error field and keeps the step name "query_analyzed": an LLM failure
there degrades to the default classification instead of routing to the error
node. -/
def query_analysis_node : AnalyzeOutcome → AgentState → NodeUpdate
  | .parsed intent needsRewrite reasoning, _ =>
      { query_intent := some intent
        needs_rewrite := some needsRewrite
        agent_thoughts := ["Analyzed query intent: " ++ intent ++ ". " ++ reasoning]
        current_step := some "query_analyzed" }
  | .parseFailed, _ =>
      { query_intent := some "retrieval"
        needs_rewrite := some true
        agent_thoughts := ["Analyzed query intent: retrieval. Default classification"]
        current_step := some "query_analyzed" }
  | .raised msg, _ =>
      { query_intent := some "retrieval"
        needs_rewrite := some true
        agent_thoughts := ["Error in analysis: " ++ msg ++ ". Defaulting to retrieval."]
        current_step := some "query_analyzed" }

/-- Embedding of `query_rewrite_node`.  `lm` is the outcome of the LLM call
(`Except.error` models a raised exception).  The except branch does not set
the error field. -/
def query_rewrite_node (lm : Except String String) (st : AgentState) : NodeUpdate :=
  if !st.needs_rewrite ∨ (st.query_intent ≠ some "retrieval" ∧ st.query_intent ≠ some "sql") then
    { rewritten_query := some st.user_query
      agent_thoughts := ["Query rewrite not needed"]
      current_step := some "query_ready" }
  else
    match lm with
    | .ok rewritten =>
        { rewritten_query := some rewritten
          agent_thoughts := ["Rewrote query"]
          current_step := some "query_rewritten" }
    | .error msg =>
        { rewritten_query := some st.user_query
          agent_thoughts := ["Error rewriting query: " ++ msg]
          current_step := some "query_rewritten" }

/-- Outcome of the vector-search tool call inside `retrieval_node`: a result
dict with a success flag, sources and an optional error message, or a raised
exception. -/
inductive ToolOutcome where
  | result (success : Bool) (sources : List Doc) (err : Option String)
  | raised (msg : String)
deriving DecidableEq, Repr

/-- Embedding of `retrieval_node`.  On tool failure the update carries
`result.get("error")` (which may be Python None); on a raised exception it
carries the exception message.  Both use step "retrieval_failed". -/
def retrieval_node : ToolOutcome → AgentState → NodeUpdate
  | .result success sources err, _ =>
      if !success then
        { retrieved_documents := some []
          relevance_scores := some []
          agent_thoughts := ["Document retrieval failed"]
          current_step := some "retrieval_failed"
          error := some err }
      else
        { retrieved_documents := some sources
          relevance_scores := some (sources.map Doc.score)
          agent_thoughts := ["Retrieved relevant documents"]
          current_step := some "documents_retrieved"
          tools_used := ["vector_search"] }
  | .raised msg, _ =>
      { retrieved_documents := some []
        relevance_scores := some []
        agent_thoughts := ["Error retrieving documents: " ++ msg]
        current_step := some "retrieval_failed"
        error := some (some msg) }

/-- Stable insertion into a list sorted descending by `key`: the new element
is placed before the first element whose key is not greater.  This models the
stable descending order of Python `sorted(key=..., reverse=True)`. -/
def insertByDesc (key : α → ℚ) (x : α) : List α → List α
  | [] => [x]
  | y :: ys => if key x < key y then y :: insertByDesc key x ys else x :: y :: ys

/-- Stable descending sort by `key`, modelling Python
`sorted(key=..., reverse=True)` (ties keep their original order). -/
def sortByDesc (key : α → ℚ) : List α → List α
  | [] => []
  | x :: xs => insertByDesc key x (sortByDesc key xs)

/-- Embedding of `reranking_node`.  `exc` is the message of an exception
raised inside the try block, if any.  With at most 3 documents reranking is
skipped; otherwise the documents are sorted by score descending and truncated
to the top 3.  The except branch does not set the error field. -/
def reranking_node : Option String → AgentState → NodeUpdate
  | some msg, st =>
      { reranked_documents := some st.retrieved_documents
        agent_thoughts := ["Error reranking: " ++ msg]
        current_step := some "documents_ready" }
  | none, st =>
      if st.retrieved_documents.length ≤ 3 then
        { reranked_documents := some st.retrieved_documents
          agent_thoughts := ["Skipped reranking (sufficient documents)"]
          current_step := some "documents_ready" }
      else
        { reranked_documents := some ((sortByDesc Doc.score st.retrieved_documents).take 3)
          agent_thoughts := ["Reranked to top 3 most relevant documents"]
          current_step := some "documents_reranked" }

/-- Documents used by `response_generation_node`:
`state.get("reranked_documents") or state.get("retrieved_documents", [])` —
Python `or` falls through both on None and on an empty list. -/
def docsForResponse (st : AgentState) : List Doc :=
  match st.reranked_documents with
  | some l => if l.isEmpty then st.retrieved_documents else l
  | none => st.retrieved_documents

/-- Embedding of `response_generation_node`.  `lm` is the outcome of the LLM
call.  The success branch records the answer and citations built from the
first three documents (text truncated to 200 characters); the except branch
sets the error field, an apologetic `final_response`, step "response_failed",
and still stamps `completed_at`. -/
def response_generation_node : Except String String → AgentState → NodeUpdate
  | .ok answer, st =>
      { final_response := some answer
        citations := some (((docsForResponse st).take 3).map fun d =>
          { text := d.text.take 200 ++ "...", score := d.score })
        agent_thoughts := ["Generated response with citations"]
        current_step := some "response_generated"
        completed_at := some () }
  | .error msg, _ =>
      { final_response := some ("I apologize, but I encountered an error: " ++ msg)
        citations := some []
        agent_thoughts := ["Error generating response: " ++ msg]
        current_step := some "response_failed"
        error := some (some msg)
        completed_at := some () }

/-- The validation predicate of `validation_node`: a draft is valid when it is
longer than 10 characters and does not start with a known-bad prefix. -/
def isValidResponse (r : String) : Bool :=
  decide (r.length > 10) &&
    !(r.startsWith "I don\x27t know") &&
    !(r.startsWith "I apologize, but I encountered an error")

/-- Embedding of `validation_node`.  `exc` selects the except branch (which
keeps step "validated" and does not set the error field).  A state whose
`final_response` is Python None would raise TypeError in `len(response)` and
land in the same except branch.  On a rejected draft with
`retry_count < 2` the node increments the retry counter, requests a rewrite
and reports step "validation_failed"; otherwise it reports "validated". -/
def validation_node : Option String → AgentState → NodeUpdate
  | some msg, _ =>
      { agent_thoughts := ["Validation error: " ++ msg]
        current_step := some "validated" }
  | none, st =>
    match st.final_response with
    | none =>
      { agent_thoughts := ["Validation error: TypeError"]
        current_step := some "validated" }
    | some r =>
      if !isValidResponse r ∧ st.retry_count < 2 then
        { agent_thoughts := ["Response needs improvement, retrying..."]
          current_step := some "validation_failed"
          retry_count := some (st.retry_count + 1)
          needs_rewrite := some true }
      else
        { agent_thoughts := ["Response validated successfully"]
          current_step := some "validated" }

/-- Embedding of `error_handling_node`.  Both the normal branch and the
except branch produce a non-empty fallback `final_response` and stamp
`completed_at`; neither clears or sets the error field. -/
def error_handling_node : Option String → AgentState → NodeUpdate
  | none, st =>
      { final_response := some ("I apologize, but I encountered an issue while processing your request. " ++
          "Please try rephrasing your question or contact support if the problem persists.")
        citations := some []
        agent_thoughts := ["Error handled: " ++ (st.error.getD "Unknown error")]
        current_step := some "error_handled"
        completed_at := some () }
  | some _, _ =>
      { final_response := some "An unexpected error occurred."
        current_step := some "error_handled"
        completed_at := some () }

/-! ## Conditional edges (graph.py)

Each routing function returns the literal string labels of the source.  The
Python `state.get(key, default)` calls never see a missing key (the TypedDict
is fully populated by `create_initial_state`), so they read the state field
directly; `query_intent` may still be None, in which case the membership test
`intent in ["retrieval", "sql"]` is False. -/

/-- Embedding of `should_retrieve`. -/
def should_retrieve (st : AgentState) : String :=
  if st.error.isSome then "error"
  else if st.query_intent = some "retrieval" ∨ st.query_intent = some "sql" then "retrieve"
  else "respond"

/-- Embedding of `should_rerank`. -/
def should_rerank (st : AgentState) : String :=
  if st.error.isSome then "error"
  else if st.retrieved_documents.length > 3 then "rerank"
  else "respond"

/-- Embedding of `should_retry`.  It reads the state AFTER the validation
update has been merged, so the retry counter it compares with 2 is the
already-incremented one. -/
def should_retry (st : AgentState) : String :=
  if st.error.isSome then "error"
  else if st.current_step = "validation_failed" ∧ st.retry_count < 2 then "rewrite"
  else "end"

/-- Embedding of `route_after_analysis`. -/
def route_after_analysis (st : AgentState) : String :=
  if st.error.isSome then "error" else "rewrite"

/-! ## The compiled graph (create_agent_graph / run_agent)

The environment fixes the outcome of every external interaction of one run:
the analysis outcome, and per retry-pass outcomes for the rewrite LLM call,
the vector-search tool, the reranking body, the respond LLM call and the
validation body, plus the error-node body. -/

structure Env where
  analyze : AnalyzeOutcome
  rewriteLM : ℕ → Except String String
  retrieveTool : ℕ → ToolOutcome
  rerankExc : ℕ → Option String
  respondLM : ℕ → Except String String
  validateExc : ℕ → Option String
  errorExc : Option String

/-- Decision taken by `should_retry` at the end of a pass through the
rewrite–…–validate chain. -/
inductive PassDecision where
  | toEnd
  | toError
  | retry
deriving DecidableEq, Repr

/-- The respond → validate tail of a pass: executes
`response_generation_node`, then `validation_node`, then evaluates
`should_retry` on the merged state.  Returns the executed (node, post-state)
trace, the resulting state and the routing decision. -/
def respondPhase (env : Env) (k : ℕ) (st : AgentState) :
    List (String × AgentState) × AgentState × PassDecision :=
  let s1 := applyUpdate st (response_generation_node (env.respondLM k) st)
  let s2 := applyUpdate s1 (validation_node (env.validateExc k) s1)
  let d := if should_retry s2 = "error" then PassDecision.toError
           else if should_retry s2 = "rewrite" then PassDecision.retry
           else PassDecision.toEnd
  ([("respond", s1), ("validate", s2)], s2, d)

/-- The retrieve → (rerank?) → respond → validate segment of a pass, entered
when `should_retrieve` answered "retrieve". -/
def retrievePhase (env : Env) (k : ℕ) (st : AgentState) :
    List (String × AgentState) × AgentState × PassDecision :=
  let s1 := applyUpdate st (retrieval_node (env.retrieveTool k) st)
  if should_rerank s1 = "error" then ([("retrieve", s1)], s1, PassDecision.toError)
  else if should_rerank s1 = "rerank" then
    let s2 := applyUpdate s1 (reranking_node (env.rerankExc k) s1)
    let t := respondPhase env k s2
    (("retrieve", s1) :: ("rerank", s2) :: t.1, t.2)
  else
    let t := respondPhase env k s1
    (("retrieve", s1) :: t.1, t.2)

/-- One pass through the cycle entered at `rewrite`: executes
`query_rewrite_node` and follows `should_retrieve`, ending with the
`should_retry` decision of `validation_node`. -/
def passBody (env : Env) (k : ℕ) (st : AgentState) :
    List (String × AgentState) × AgentState × PassDecision :=
  let s1 := applyUpdate st (query_rewrite_node (env.rewriteLM k) st)
  if should_retrieve s1 = "error" then ([("rewrite", s1)], s1, PassDecision.toError)
  else if should_retrieve s1 = "retrieve" then
    let t := retrievePhase env k s1
    (("rewrite", s1) :: t.1, t.2)
  else
    let t := respondPhase env k s1
    (("rewrite", s1) :: t.1, t.2)

/-- Fueled iteration of the rewrite cycle.  On decision `retry` the next pass
starts at `rewrite` with the incremented pass index; on `toError` the error
node is executed and the run ends; on `toEnd` the run ends at END.  The
claims show fuel 2 is exact: a shortage never occurs. -/
def runLoop (env : Env) : ℕ → ℕ → AgentState → List (String × AgentState) × AgentState
  | _, 0, st => ([], st)
  | k, fuel + 1, st =>
    match passBody env k st with
    | (tr, fin, PassDecision.toEnd) => (tr, fin)
    | (tr, fin, PassDecision.toError) =>
        let e := applyUpdate fin (error_handling_node env.errorExc fin)
        (tr ++ [("error", e)], e)
    | (tr, fin, PassDecision.retry) =>
        let rest := runLoop env (k + 1) fuel fin
        (tr ++ rest.1, rest.2)

/-- Embedding of `run_agent` of graph.py: builds the initial state, executes
`query_analysis_node`, follows `route_after_analysis`, and iterates the
rewrite cycle.  The first component records every executed node with the
state merged after it; the second component is the final state that
`run_agent` returns. -/
def run_agent (env : Env) (tenant_id user_id session_id user_query : String) :
    List (String × AgentState) × AgentState :=
  let st0 := create_initial_state tenant_id user_id session_id user_query
  let s1 := applyUpdate st0 (query_analysis_node env.analyze st0)
  if route_after_analysis s1 = "error" then
    let e := applyUpdate s1 (error_handling_node env.errorExc s1)
    ([("analyze", s1), ("error", e)], e)
  else
    let rest := runLoop env 0 2 s1
    (("analyze", s1) :: rest.1, rest.2)

/-! ## Hybrid retrieval (hybrid_retrieval.py)

`HybridRetriever` combines BM25 sparse retrieval, embedding-based dense
retrieval, reciprocal rank fusion and cross-encoder reranking.  The
collaborators (the sentence-transformer `encode`, the cross-encoder
`predict`) are function parameters returning `Except` (error = raised
exception).  The `idf` table of the rank_bm25 library involves logarithms and
is passed as a rational-valued parameter; the square root inside
`np.linalg.norm` is likewise not rational, so the norm is a parameter of the
cosine-similarity model.  No claim proved here depends on their values. -/

/-- Whitespace tokenizer on character lists: splits on whitespace runs and
produces no empty tokens, exactly like Python `str.split()` with no
argument.  (Defined structurally so that the kernel can evaluate it; the
library `String.split` is compiled by well-founded recursion and does not
reduce.) -/
def splitWs : List Char → List Char → List String
  | [], acc => if acc.isEmpty then [] else [String.mk acc.reverse]
  | c :: cs, acc =>
      if c.isWhitespace then
        if acc.isEmpty then splitWs cs [] else String.mk acc.reverse :: splitWs cs []
      else splitWs cs (c :: acc)

/-- Python `text.lower().split()`: lower-case every character, then split on
whitespace runs, dropping empty pieces.  Used by `build_bm25_index` and
`retrieve_sparse`. -/
def pyTokens (s : String) : List String :=
  splitWs (s.data.map Char.toLower) []

/-- The scoring parameters of `rank_bm25.BM25Okapi`: the idf table (built
from document frequencies with logarithms, hence a parameter here) and the
constants k1 = 1.5, b = 0.75. -/
structure BM25Params where
  idf : String → ℚ
  k1 : ℚ
  b : ℚ

/-- BM25Okapi score of one document for one query: the sum over query terms
of idf(t) * tf * (k1 + 1) / (tf + k1 * (1 - b + b * dl / avgdl)), where tf is
the term frequency in the document and dl its token count.  A term absent
from the document contributes 0 regardless of its idf. -/
def bm25DocScore (p : BM25Params) (avgdl : ℚ) (queryTokens docTokens : List String) : ℚ :=
  (queryTokens.map fun t =>
    let tf : ℚ := (docTokens.count t : ℚ)
    p.idf t * (tf * (p.k1 + 1)) / (tf + p.k1 * (1 - p.b + p.b * (docTokens.length : ℚ) / avgdl))).sum

/-- BM25Okapi `get_scores`: one score per corpus document, with
avgdl = total token count / corpus size. -/
def bm25GetScores (p : BM25Params) (corpus : List (List String)) (queryTokens : List String) :
    List ℚ :=
  let avgdl : ℚ := ((corpus.map List.length).sum : ℚ) / (corpus.length : ℚ)
  corpus.map fun docTokens => bm25DocScore p avgdl queryTokens docTokens

/-- Stable ascending insertion by key (the new element goes after existing
equal keys), companion of `insertByDesc`. -/
def insertByAsc (key : α → ℚ) (x : α) : List α → List α
  | [] => [x]
  | y :: ys => if key y ≤ key x then y :: insertByAsc key x ys else x :: y :: ys

/-- Stable ascending sort by key. -/
def sortByAsc (key : α → ℚ) : List α → List α
  | [] => []
  | x :: xs => insertByAsc key x (sortByAsc key xs)

/-- Model of `np.argsort(scores)[::-1]`: the indices 0..n-1 sorted ascending
by score, then reversed.  (numpy leaves the relative order of equal scores
unspecified; the stable order is one refinement of it, and no claim depends
on tie order.) -/
def argsortDesc (scores : List ℚ) : List ℕ :=
  (sortByAsc (fun i => scores.getD i 0) (List.range scores.length)).reverse

/-- Embedding of `HybridRetriever.retrieve_sparse` after
`build_bm25_index documents`: BM25-score every document against the
tokenized query, keep the `top_k` best indices, and return only pairs with a
strictly positive score.  (The guard returning [] when no index was built is
outside this model: the index is the `documents` argument.) -/
def retrieve_sparse (p : BM25Params) (documents : List String) (query : String) (top_k : ℕ) :
    List (String × ℚ) :=
  let scores := bm25GetScores p (documents.map pyTokens) (pyTokens query)
  let top_indices := (argsortDesc scores).take top_k
  (top_indices.filter fun idx => 0 < scores.getD idx 0).map fun idx =>
    (documents.getD idx "", scores.getD idx 0)

/-- Dot product of two rational vectors (numpy `dot`; `zip` truncates to the
shorter vector, matching equal-length embedding vectors). -/
def dotProduct (u v : List ℚ) : ℚ :=
  ((u.zip v).map fun q => q.1 * q.2).sum

/-- Cosine similarity as computed by `retrieve_dense`:
`np.dot(doc_emb, query_emb) / (norm(doc_emb) * norm(query_emb))`.  `norm`
stands for `np.linalg.norm`, whose square root is not rational. -/
def cosineSim (norm : List ℚ → ℚ) (docEmb queryEmb : List ℚ) : ℚ :=
  dotProduct docEmb queryEmb / (norm docEmb * norm queryEmb)

/-- Embedding of `HybridRetriever.retrieve_dense`: encode the query and every
document (the per-document embedding cache only avoids re-invoking the pure
`encode` collaborator and is dropped), score by cosine similarity, return
the `top_k` best pairs.  Any raised exception (modelled by `Except.error`
from `encode`) is caught and turns the result into []. -/
def retrieve_dense (norm : List ℚ → ℚ) (encode : String → Except String (List ℚ))
    (query : String) (documents : List String) (top_k : ℕ) : List (String × ℚ) :=
  let body : Except String (List (String × ℚ)) := do
    let queryEmb ← encode query
    let docEmbs ← documents.mapM encode
    let sims := docEmbs.map fun docEmb => cosineSim norm docEmb queryEmb
    let top_indices := (argsortDesc sims).take top_k
    pure (top_indices.map fun idx => (documents.getD idx "", sims.getD idx 0))
  match body with
  | .ok r => r
  | .error _ => []

/-- First-match lookup with default in an insertion-ordered association
list, modelling Python `dict.get(key, default)`. -/
def dictGetD : List (String × ℚ) → String → ℚ → ℚ
  | [], _, dflt => dflt
  | (k, v) :: m, key, dflt => if k = key then v else dictGetD m key dflt

/-- Update-or-append in an insertion-ordered association list, modelling
Python `dict[key] = value`. -/
def dictInsert : List (String × ℚ) → String → ℚ → List (String × ℚ)
  | [], key, v => [(key, v)]
  | (k, w) :: m, key, v =>
      if k = key then (k, v) :: m else (k, w) :: dictInsert m key v

/-- One `for rank, (doc, score) in enumerate(results)` loop of
`_reciprocal_rank_fusion`: each pair adds weight / (kc + rank + 1) to its
accumulated score of its document.  The score component of the pairs is ignored,
exactly as in the source. -/
def addRRF (weight kc : ℚ) : List (String × ℚ) → List (String × ℚ) → ℕ → List (String × ℚ)
  | m, [], _ => m
  | m, (doc, _) :: rest, rank =>
      addRRF weight kc
        (dictInsert m doc (dictGetD m doc 0 + weight / (kc + (rank : ℚ) + 1))) rest (rank + 1)

/-- Embedding of `HybridRetriever._reciprocal_rank_fusion`: sparse results
are folded in with weight 1 - alpha, then dense results with weight alpha.
The result is the insertion-ordered dict of combined scores. -/
def reciprocal_rank_fusion (sparse_results dense_results : List (String × ℚ))
    (alpha kc : ℚ) : List (String × ℚ) :=
  addRRF alpha kc (addRRF (1 - alpha) kc [] sparse_results 0) dense_results 0

/-- Embedding of `HybridRetriever.rerank_results`: cross-encoder scores for
each (query, document) pair, sorted descending, truncated to `top_k`.  If
`predict` raises, the except branch returns the first `top_k` documents with
score 0.0 instead. -/
def rerank_results (predict : List (String × String) → Except String (List ℚ))
    (query : String) (documents : List String) (top_k : ℕ) : List (String × ℚ) :=
  if documents.length = 0 then []
  else
    match predict (documents.map fun d => (query, d)) with
    | .ok scores => (sortByDesc Prod.snd (documents.zip scores)).take top_k
    | .error _ => (documents.take top_k).map fun d => (d, 0)

/-- Embedding of `HybridRetriever.hybrid_retrieve`: BM25 index on
`documents`, sparse and dense retrieval of 2·top_k candidates each,
reciprocal rank fusion with smoothing constant 60, descending sort of the
fused dict, truncation to 2·top_k, and optional reranking down to `top_k`.
(The surrounding try/except never fires: every inner failure is already
caught by the callee.) -/
def hybrid_retrieve (p : BM25Params) (norm : List ℚ → ℚ)
    (encode : String → Except String (List ℚ))
    (predict : List (String × String) → Except String (List ℚ))
    (query : String) (documents : List String) (top_k : ℕ) (alpha : ℚ)
    (rerank : Bool) : List (String × ℚ) :=
  let sparse_results := retrieve_sparse p documents query (top_k * 2)
  let dense_results := retrieve_dense norm encode query documents (top_k * 2)
  let combined_scores := reciprocal_rank_fusion sparse_results dense_results alpha 60
  let sorted_results := (sortByDesc Prod.snd combined_scores).take (top_k * 2)
  if rerank ∧ 0 < sorted_results.length then
    rerank_results predict query (sorted_results.map Prod.fst) top_k
  else
    sorted_results.take top_k

/-- The sparse-only pipeline: what `hybrid_retrieve` computes when the dense
leg contributes nothing (fusion of the sparse list with the empty dense
list, sort, truncate, optional rerank).  Used to state the embedding-failure
fallback. -/
def sparseOnlyPipeline (p : BM25Params)
    (predict : List (String × String) → Except String (List ℚ))
    (query : String) (documents : List String) (top_k : ℕ) (alpha : ℚ)
    (rerank : Bool) : List (String × ℚ) :=
  let sparse_results := retrieve_sparse p documents query (top_k * 2)
  let combined_scores := reciprocal_rank_fusion sparse_results [] alpha 60
  let sorted_results := (sortByDesc Prod.snd combined_scores).take (top_k * 2)
  if rerank ∧ 0 < sorted_results.length then
    rerank_results predict query (sorted_results.map Prod.fst) top_k
  else
    sorted_results.take top_k

/-- The fused candidate list of `hybrid_retrieve` before reranking: the
sorted dict of combined scores truncated to 2·top_k.  Used to state the
rerank-failure fallback. -/
def fusedCandidates (p : BM25Params) (norm : List ℚ → ℚ)
    (encode : String → Except String (List ℚ))
    (query : String) (documents : List String) (top_k : ℕ) (alpha : ℚ) :
    List (String × ℚ) :=
  (sortByDesc Prod.snd
    (reciprocal_rank_fusion (retrieve_sparse p documents query (top_k * 2))
      (retrieve_dense norm encode query documents (top_k * 2)) alpha 60)).take (top_k * 2)

/-- Total reciprocal-rank contribution of one ranked document list to
document `d`: the sum of weight / (kc + rank + 1) over the positions of `d`,
with ranks starting at `rank`.  This is the specification-side reading of
one `addRRF` loop. -/
def rrfContrib (weight kc : ℚ) (d : String) : List String → ℕ → ℚ
  | [], _ => 0
  | x :: xs, rank =>
      (if x = d then weight / (kc + (rank : ℚ) + 1) else 0) + rrfContrib weight kc d xs (rank + 1)

/-! ## Concrete instances used by the claim checks -/

/-- A fresh initial state. -/
def stBase : AgentState := create_initial_state "t" "u" "s" "q"

/-- A state holding a draft that the validation predicate rejects, before any
retry. -/
def stRejected0 : AgentState := { stBase with final_response := some "bad" }

/-- A state holding a rejected draft after one retry. -/
def stRejected1 : AgentState :=
  { stBase with final_response := some "bad", retry_count := 1 }

/-- Four retrieved documents: enough to trigger the reranking node. -/
def docsFour : List Doc := [⟨"d1", 1⟩, ⟨"d2", 2⟩, ⟨"d3", 3⟩, ⟨"d4", 4⟩]

/-- A state carrying the four documents. -/
def stFourDocs : AgentState := { stBase with retrieved_documents := docsFour }

/-- An environment driving the longest non-error run: retrieval intent, four
documents (so the rerank node runs), and a draft that is always rejected. -/
def envEleven : Env where
  analyze := AnalyzeOutcome.parsed "retrieval" true "r"
  rewriteLM := fun _ => Except.ok "rewritten"
  retrieveTool := fun _ => ToolOutcome.result true docsFour none
  rerankExc := fun _ => none
  respondLM := fun _ => Except.ok "short"
  validateExc := fun _ => none
  errorExc := none

/-- The same environment except that the vector-search tool raises. -/
def envToolRaises : Env := { envEleven with
  retrieveTool := fun _ => ToolOutcome.raised "connection refused" }

/-- The first trace entry of the failing run (the analyze step). -/
def pW : String × AgentState :=
  (run_agent envToolRaises "t" "u" "s" "q").1.getD 0 ("", stBase)

/-- BM25 parameters with the idf table of the external library replaced by
the constant 1 (any positive table gives the same claim verdicts). -/
def pEx : BM25Params where
  idf := fun _ => 1
  k1 := 3 / 2
  b := 3 / 4

/-- An embedding collaborator mapping the corpus texts to the unit vectors
e1 and e2. -/
def encodeEx : String → Except String (List ℚ) := fun s =>
  if s = "a" then Except.ok [1, 0] else Except.ok [0, 1]

/-- Sum of squares.  On the unit coordinate vectors produced by `encodeEx`
this coincides exactly with the Euclidean `np.linalg.norm` (both are 1), so
instantiating the norm parameter with it is faithful on every vector that
occurs. -/
def normEx : List ℚ → ℚ := fun v => (v.map fun x => x * x).sum

/-- A cross-encoder collaborator that always raises. -/
def predictFail : List (String × String) → Except String (List ℚ) :=
  fun _ => Except.error "oom"

/-- A cross-encoder collaborator that scores every pair 1. -/
def predictW : List (String × String) → Except String (List ℚ) :=
  fun pairs => Except.ok (pairs.map fun _ => 1)

/-- An embedding collaborator that always raises. -/
def encodeFailEx : String → Except String (List ℚ) :=
  fun _ => Except.error "down"

/-! ## Helper lemmas: sorting, association lists, rank fusion -/

theorem insertByDesc_perm (key : α → ℚ) (x : α) (l : List α) :
    List.Perm (insertByDesc key x l) (x :: l) := by
  induction l with
  | nil => exact List.Perm.refl _
  | cons y ys ih =>
    unfold insertByDesc
    split
    · exact (ih.cons y).trans (List.Perm.swap x y ys)
    · exact List.Perm.refl _

theorem sortByDesc_perm (key : α → ℚ) (l : List α) :
    List.Perm (sortByDesc key l) l := by
  induction l with
  | nil => exact List.Perm.refl _
  | cons x xs ih =>
    exact (insertByDesc_perm key x (sortByDesc key xs)).trans (ih.cons x)

theorem map_fst_zip_sublist (l₁ : List α) (l₂ : List β) :
    List.Sublist ((l₁.zip l₂).map Prod.fst) l₁ := by
  induction l₁ generalizing l₂ with
  | nil => simp
  | cons a t ih =>
    cases l₂ with
    | nil => simp
    | cons b t₂ =>
      simpa [List.zip_cons_cons] using (ih t₂).cons₂ a

theorem dictGetD_insert_self (m : List (String × ℚ)) (key : String) (v dflt : ℚ) :
    dictGetD (dictInsert m key v) key dflt = v := by
  induction m with
  | nil => simp [dictInsert, dictGetD]
  | cons p m ih =>
    obtain ⟨k, w⟩ := p
    unfold dictInsert
    split
    · rename_i hk
      subst hk
      simp [dictGetD]
    · rename_i hk
      simp only [dictGetD, if_neg hk]
      exact ih

theorem dictGetD_insert_ne (m : List (String × ℚ)) (key key2 : String) (v dflt : ℚ)
    (h : key ≠ key2) :
    dictGetD (dictInsert m key v) key2 dflt = dictGetD m key2 dflt := by
  induction m with
  | nil => simp [dictInsert, dictGetD, h]
  | cons p m ih =>
    obtain ⟨k, w⟩ := p
    unfold dictInsert
    split
    · rename_i hk
      subst hk
      simp [dictGetD, h]
    · simp [dictGetD]
      split
      · rfl
      · exact ih

theorem dictGetD_addRRF (w kc : ℚ) (d : String) (l : List (String × ℚ)) :
    ∀ (m : List (String × ℚ)) (r : ℕ),
      dictGetD (addRRF w kc m l r) d 0 =
        dictGetD m d 0 + rrfContrib w kc d (l.map Prod.fst) r := by
  induction l with
  | nil => intro m r; simp [addRRF, rrfContrib]
  | cons p rest ih =>
    intro m r
    obtain ⟨doc, s⟩ := p
    unfold addRRF
    rw [ih]
    by_cases h : doc = d
    · subst h
      rw [dictGetD_insert_self]
      simp only [List.map_cons, rrfContrib, if_pos rfl, eq_self_iff_true, if_true]
      ring
    · rw [dictGetD_insert_ne _ _ _ _ _ h]
      simp only [List.map_cons, rrfContrib, if_neg h]
      ring

theorem rrfContrib_of_not_mem (w kc : ℚ) (d : String) (docs : List String)
    (h : d ∉ docs) : ∀ r : ℕ, rrfContrib w kc d docs r = 0 := by
  induction docs with
  | nil => intro r; rfl
  | cons x xs ih =>
    intro r
    have hx : x ≠ d := fun hc => h (hc ▸ List.mem_cons_self x xs)
    have hxs : d ∉ xs := fun hc => h (List.mem_cons_of_mem x hc)
    simp [rrfContrib, hx, ih hxs]

theorem addRRF_congr_fst (w kc : ℚ) (l l' : List (String × ℚ))
    (h : l.map Prod.fst = l'.map Prod.fst) :
    ∀ (m : List (String × ℚ)) (r : ℕ), addRRF w kc m l r = addRRF w kc m l' r := by
  induction l generalizing l' with
  | nil =>
    cases l' with
    | nil => intro m r; rfl
    | cons q rest2 => simp at h
  | cons p rest ih =>
    cases l' with
    | nil => simp at h
    | cons q rest2 =>
      obtain ⟨doc, s⟩ := p
      obtain ⟨doc2, s2⟩ := q
      simp only [List.map_cons, List.cons.injEq] at h
      obtain ⟨h1, h2⟩ := h
      subst h1
      intro m r
      unfold addRRF
      exact ih rest2 h2 _ _

theorem getD_eq_zero_of_all_zero (l : List ℚ) (h : ∀ x ∈ l, x = 0) (i : ℕ) :
    l.getD i 0 = 0 := by
  by_cases hi : i < l.length
  · rw [List.getD_eq_getElem l 0 hi]
    exact h _ (List.getElem_mem hi)
  · rw [List.getD_eq_default]
    exact Nat.le_of_not_lt hi

theorem bm25DocScore_of_no_overlap (p : BM25Params) (avgdl : ℚ)
    (queryTokens docTokens : List String)
    (h : ∀ t ∈ queryTokens, t ∉ docTokens) :
    bm25DocScore p avgdl queryTokens docTokens = 0 := by
  unfold bm25DocScore
  apply List.sum_eq_zero
  intro x hx
  obtain ⟨t, ht, rfl⟩ := List.mem_map.1 hx
  have hcount : docTokens.count t = 0 := List.count_eq_zero.2 (h t ht)
  simp [hcount]

/-! ## Helper lemmas: state merging, node updates, routing -/

theorem applyUpdate_retry_count (st : AgentState) (u : NodeUpdate) :
    (applyUpdate st u).retry_count = u.retry_count.getD st.retry_count := rfl

theorem applyUpdate_error (st : AgentState) (u : NodeUpdate) :
    (applyUpdate st u).error = u.error.getD st.error := rfl

theorem applyUpdate_current_step (st : AgentState) (u : NodeUpdate) :
    (applyUpdate st u).current_step = u.current_step.getD st.current_step := rfl

theorem applyUpdate_final_response (st : AgentState) (u : NodeUpdate) :
    (applyUpdate st u).final_response =
      u.final_response.orElse fun _ => st.final_response := rfl

theorem applyUpdate_completed_at (st : AgentState) (u : NodeUpdate) :
    (applyUpdate st u).completed_at =
      u.completed_at.orElse fun _ => st.completed_at := rfl

theorem query_analysis_node_error (out : AnalyzeOutcome) (st : AgentState) :
    (query_analysis_node out st).error = none := by
  cases out <;> rfl

theorem query_analysis_node_retry_count (out : AnalyzeOutcome) (st : AgentState) :
    (query_analysis_node out st).retry_count = none := by
  cases out <;> rfl

theorem query_rewrite_node_error (lm : Except String String) (st : AgentState) :
    (query_rewrite_node lm st).error = none := by
  unfold query_rewrite_node
  split
  · rfl
  · cases lm <;> rfl

theorem query_rewrite_node_retry_count (lm : Except String String) (st : AgentState) :
    (query_rewrite_node lm st).retry_count = none := by
  unfold query_rewrite_node
  split
  · rfl
  · cases lm <;> rfl

theorem retrieval_node_retry_count (out : ToolOutcome) (st : AgentState) :
    (retrieval_node out st).retry_count = none := by
  cases out with
  | result success sources err => cases success <;> rfl
  | raised msg => rfl

theorem reranking_node_error (exc : Option String) (st : AgentState) :
    (reranking_node exc st).error = none := by
  cases exc with
  | none =>
    simp only [reranking_node]
    split <;> rfl
  | some msg => rfl

theorem reranking_node_retry_count (exc : Option String) (st : AgentState) :
    (reranking_node exc st).retry_count = none := by
  cases exc with
  | none =>
    simp only [reranking_node]
    split <;> rfl
  | some msg => rfl

theorem response_generation_node_retry_count (lm : Except String String) (st : AgentState) :
    (response_generation_node lm st).retry_count = none := by
  cases lm <;> rfl

theorem validation_node_error (exc : Option String) (st : AgentState) :
    (validation_node exc st).error = none := by
  cases exc with
  | some msg => rfl
  | none =>
    simp only [validation_node]
    split
    · rfl
    · split <;> rfl

/-- The two possible shapes of a validation update: accepted (or excepted)
with step "validated" and no counter change, or rejected with step
"validation_failed" and the counter incremented, which the source only does
when the pre-state counter is strictly below 2. -/
theorem validation_node_spec (exc : Option String) (st : AgentState) :
    ((validation_node exc st).current_step = some "validated" ∧
      (validation_node exc st).retry_count = none) ∨
    ((validation_node exc st).current_step = some "validation_failed" ∧
      (validation_node exc st).retry_count = some (st.retry_count + 1) ∧
      st.retry_count < 2) := by
  cases exc with
  | some msg => exact Or.inl ⟨rfl, rfl⟩
  | none =>
    simp only [validation_node]
    split
    · exact Or.inl ⟨rfl, rfl⟩
    · split
      · rename_i hcond
        exact Or.inr ⟨rfl, rfl, hcond.2⟩
      · exact Or.inl ⟨rfl, rfl⟩

theorem error_handling_node_final_response (exc : Option String) (st : AgentState) :
    ∃ r, (error_handling_node exc st).final_response = some r ∧ r ≠ "" := by
  cases exc with
  | none => exact ⟨_, rfl, by decide⟩
  | some msg => exact ⟨_, rfl, by decide⟩

theorem error_handling_node_completed_at (exc : Option String) (st : AgentState) :
    (error_handling_node exc st).completed_at = some () := by
  cases exc <;> rfl

theorem should_retrieve_eq_error_iff (st : AgentState) :
    should_retrieve st = "error" ↔ st.error.isSome := by
  unfold should_retrieve
  split_ifs with h1 h2
  · simp [h1]
  · simp [h1]
  · simp [h1]

theorem should_rerank_eq_error_iff (st : AgentState) :
    should_rerank st = "error" ↔ st.error.isSome := by
  unfold should_rerank
  split_ifs with h1 h2
  · simp [h1]
  · simp [h1]
  · simp [h1]

theorem should_retry_eq_error_iff (st : AgentState) :
    should_retry st = "error" ↔ st.error.isSome := by
  unfold should_retry
  split_ifs with h1 h2
  · simp [h1]
  · simp [h1]
  · simp [h1]

theorem should_retry_eq_rewrite_iff (st : AgentState) :
    should_retry st = "rewrite" ↔
      st.error = none ∧ st.current_step = "validation_failed" ∧ st.retry_count < 2 := by
  unfold should_retry
  split_ifs with h1 h2
  · constructor
    · intro habs; exact absurd habs (by decide)
    · rintro ⟨h, -⟩; rw [h] at h1; exact absurd h1 (by decide)
  · constructor
    · intro _; exact ⟨Option.not_isSome_iff_eq_none.1 h1, h2⟩
    · intro _; rfl
  · constructor
    · intro habs; exact absurd habs (by decide)
    · rintro ⟨-, h⟩; exact absurd h h2

theorem route_after_analysis_eq_error_iff (st : AgentState) :
    route_after_analysis st = "error" ↔ st.error.isSome := by
  unfold route_after_analysis
  split_ifs with h1
  · simp [h1]
  · simp [h1]

/-! ## Helper lemmas: the respond → validate phase -/

theorem respondPhase_fin (env : Env) (k : ℕ) (st : AgentState) :
    (respondPhase env k st).2.1 =
      applyUpdate (applyUpdate st (response_generation_node (env.respondLM k) st))
        (validation_node (env.validateExc k)
          (applyUpdate st (response_generation_node (env.respondLM k) st))) := rfl

theorem respondPhase_trace (env : Env) (k : ℕ) (st : AgentState) :
    (respondPhase env k st).1 =
      [("respond", applyUpdate st (response_generation_node (env.respondLM k) st)),
       ("validate", (respondPhase env k st).2.1)] := rfl

theorem respondPhase_decision (env : Env) (k : ℕ) (st : AgentState) :
    (respondPhase env k st).2.2 =
      if should_retry (respondPhase env k st).2.1 = "error" then PassDecision.toError
      else if should_retry (respondPhase env k st).2.1 = "rewrite" then PassDecision.retry
      else PassDecision.toEnd := rfl

theorem respondPhase_retry_count (env : Env) (k : ℕ) (st : AgentState) :
    (respondPhase env k st).2.1.retry_count = st.retry_count ∨
    ((respondPhase env k st).2.1.retry_count = st.retry_count + 1 ∧ st.retry_count < 2) := by
  rw [respondPhase_fin]
  set s1 := applyUpdate st (response_generation_node (env.respondLM k) st) with hs1
  have h1 : s1.retry_count = st.retry_count := by
    rw [hs1, applyUpdate_retry_count, response_generation_node_retry_count]
    rfl
  rcases validation_node_spec (env.validateExc k) s1 with ⟨-, hr⟩ | ⟨-, hr, hlt⟩
  · left
    rw [applyUpdate_retry_count, hr, Option.getD_none, h1]
  · right
    rw [applyUpdate_retry_count, hr, Option.getD_some, h1]
    exact ⟨rfl, h1 ▸ hlt⟩

theorem respondPhase_bound (env : Env) (k : ℕ) (st : AgentState)
    (h : st.retry_count ≤ 2) :
    (∀ p ∈ (respondPhase env k st).1, p.2.retry_count ≤ 2) ∧
      (respondPhase env k st).2.1.retry_count ≤ 2 := by
  have hfin : (respondPhase env k st).2.1.retry_count ≤ 2 := by
    rcases respondPhase_retry_count env k st with hr | ⟨hr, hlt⟩
    · omega
    · omega
  refine ⟨?_, hfin⟩
  intro p hp
  rw [respondPhase_trace] at hp
  simp only [List.mem_cons, List.not_mem_nil, or_false] at hp
  rcases hp with rfl | rfl
  · show (applyUpdate st (response_generation_node (env.respondLM k) st)).retry_count ≤ 2
    rw [applyUpdate_retry_count, response_generation_node_retry_count]
    exact h
  · exact hfin

theorem respondPhase_retry_decision (env : Env) (k : ℕ) (st : AgentState)
    (h : (respondPhase env k st).2.2 = PassDecision.retry) :
    st.retry_count = 0 ∧ (respondPhase env k st).2.1.retry_count = 1 := by
  have hd := respondPhase_decision env k st
  rw [h] at hd
  by_cases h1 : should_retry (respondPhase env k st).2.1 = "error"
  · rw [if_pos h1] at hd
    cases hd
  · rw [if_neg h1] at hd
    by_cases h2 : should_retry (respondPhase env k st).2.1 = "rewrite"
    · have hrw := (should_retry_eq_rewrite_iff _).1 h2
      have hstep := hrw.2.1
      have hcnt := hrw.2.2
      have hfin := respondPhase_fin env k st
      set s1 := applyUpdate st (response_generation_node (env.respondLM k) st) with hs1
      have hs1r : s1.retry_count = st.retry_count := by
        rw [hs1, applyUpdate_retry_count, response_generation_node_retry_count]
        rfl
      rcases validation_node_spec (env.validateExc k) s1 with ⟨hv, -⟩ | ⟨hv, hrc, -⟩
      · exfalso
        rw [hfin, applyUpdate_current_step, hv, Option.getD_some] at hstep
        exact absurd hstep (by decide)
      · have heq : (respondPhase env k st).2.1.retry_count = st.retry_count + 1 := by
          rw [hfin, applyUpdate_retry_count, hrc, Option.getD_some, hs1r]
        constructor
        · omega
        · omega
    · rw [if_neg h2] at hd
      cases hd

theorem respondPhase_no_error (env : Env) (k : ℕ) (st : AgentState)
    (h : (respondPhase env k st).2.2 ≠ PassDecision.toError) :
    (respondPhase env k st).2.1.error = none ∧
      ∀ p ∈ (respondPhase env k st).1, p.2.error = none := by
  rw [respondPhase_decision] at h
  have hretry : should_retry (respondPhase env k st).2.1 ≠ "error" := by
    intro hc
    rw [if_pos hc] at h
    exact h rfl
  have hfin : (respondPhase env k st).2.1.error = none := by
    by_contra hc
    exact hretry ((should_retry_eq_error_iff _).2 (Option.ne_none_iff_isSome.1 hc))
  refine ⟨hfin, ?_⟩
  have hs1 : (applyUpdate st (response_generation_node (env.respondLM k) st)).error = none := by
    have := hfin
    rw [respondPhase_fin, applyUpdate_error, validation_node_error, Option.getD_none] at this
    exact this
  intro p hp
  rw [respondPhase_trace] at hp
  simp only [List.mem_cons, List.not_mem_nil, or_false] at hp
  rcases hp with rfl | rfl
  · exact hs1
  · exact hfin

theorem respondPhase_len (env : Env) (k : ℕ) (st : AgentState) :
    (respondPhase env k st).1.length = 2 := rfl

theorem error_handling_node_retry_count (exc : Option String) (st : AgentState) :
    (error_handling_node exc st).retry_count = none := by
  cases exc <;> rfl

/-- After the error node, the state carries a non-empty fallback response and
a completion stamp. -/
theorem errorNode_final (exc : Option String) (st : AgentState) :
    (applyUpdate st (error_handling_node exc st)).final_response ≠ none ∧
      (applyUpdate st (error_handling_node exc st)).final_response ≠ some "" ∧
      (applyUpdate st (error_handling_node exc st)).completed_at = some () := by
  obtain ⟨r, hr, hne⟩ := error_handling_node_final_response exc st
  refine ⟨?_, ?_, ?_⟩
  · rw [applyUpdate_final_response, hr]
    simp
  · rw [applyUpdate_final_response, hr]
    simp [hne]
  · rw [applyUpdate_completed_at, error_handling_node_completed_at exc st]
    rfl

/-! ## Helper lemmas: the retrieve phase and the full pass -/

theorem retrievePhase_len (env : Env) (k : ℕ) (st : AgentState) :
    (retrievePhase env k st).1.length ≤ 4 := by
  simp only [retrievePhase]
  split_ifs <;> simp [respondPhase_len]

theorem retrievePhase_bound (env : Env) (k : ℕ) (st : AgentState)
    (h : st.retry_count ≤ 2) :
    (∀ p ∈ (retrievePhase env k st).1, p.2.retry_count ≤ 2) ∧
      (retrievePhase env k st).2.1.retry_count ≤ 2 := by
  simp only [retrievePhase]
  set s1 := applyUpdate st (retrieval_node (env.retrieveTool k) st) with hs1
  have hr1 : s1.retry_count = st.retry_count := by
    rw [hs1, applyUpdate_retry_count, retrieval_node_retry_count, Option.getD_none]
  split_ifs with h1 h2
  · constructor
    · intro p hp
      simp only [List.mem_cons, List.not_mem_nil, or_false] at hp
      rw [hp]
      show s1.retry_count ≤ 2
      omega
    · show s1.retry_count ≤ 2
      omega
  · set s2 := applyUpdate s1 (reranking_node (env.rerankExc k) s1) with hs2
    have hr2 : s2.retry_count = st.retry_count := by
      rw [hs2, applyUpdate_retry_count, reranking_node_retry_count, Option.getD_none, hr1]
    have hb := respondPhase_bound env k s2 (by omega)
    constructor
    · intro p hp
      simp only [List.mem_cons] at hp
      rcases hp with rfl | rfl | hp
      · show s1.retry_count ≤ 2
        omega
      · show s2.retry_count ≤ 2
        omega
      · exact hb.1 p hp
    · exact hb.2
  · have hb := respondPhase_bound env k s1 (by omega)
    constructor
    · intro p hp
      simp only [List.mem_cons] at hp
      rcases hp with rfl | hp
      · show s1.retry_count ≤ 2
        omega
      · exact hb.1 p hp
    · exact hb.2

theorem retrievePhase_retry_decision (env : Env) (k : ℕ) (st : AgentState)
    (h : (retrievePhase env k st).2.2 = PassDecision.retry) :
    st.retry_count = 0 ∧ (retrievePhase env k st).2.1.retry_count = 1 := by
  simp only [retrievePhase] at h ⊢
  set s1 := applyUpdate st (retrieval_node (env.retrieveTool k) st) with hs1
  have hr1 : s1.retry_count = st.retry_count := by
    rw [hs1, applyUpdate_retry_count, retrieval_node_retry_count, Option.getD_none]
  by_cases h1 : should_rerank s1 = "error"
  · rw [if_pos h1] at h
    exact PassDecision.noConfusion h
  · rw [if_neg h1] at h ⊢
    by_cases h2 : should_rerank s1 = "rerank"
    · rw [if_pos h2] at h ⊢
      set s2 := applyUpdate s1 (reranking_node (env.rerankExc k) s1) with hs2
      have hr2 : s2.retry_count = st.retry_count := by
        rw [hs2, applyUpdate_retry_count, reranking_node_retry_count, Option.getD_none, hr1]
      have hd := respondPhase_retry_decision env k s2 h
      exact ⟨by omega, hd.2⟩
    · rw [if_neg h2] at h ⊢
      have hd := respondPhase_retry_decision env k s1 h
      exact ⟨by omega, hd.2⟩

theorem retrievePhase_no_error (env : Env) (k : ℕ) (st : AgentState)
    (_h0 : st.error = none)
    (h : (retrievePhase env k st).2.2 ≠ PassDecision.toError) :
    (retrievePhase env k st).2.1.error = none ∧
      ∀ p ∈ (retrievePhase env k st).1, p.2.error = none := by
  simp only [retrievePhase] at h ⊢
  set s1 := applyUpdate st (retrieval_node (env.retrieveTool k) st) with hs1
  split_ifs at h ⊢ with h1 h2
  · exact absurd rfl h
  · have he1 : s1.error = none := by
      by_contra hc
      exact h1 ((should_rerank_eq_error_iff s1).2 (Option.ne_none_iff_isSome.1 hc))
    set s2 := applyUpdate s1 (reranking_node (env.rerankExc k) s1) with hs2
    have he2 : s2.error = none := by
      rw [hs2, applyUpdate_error, reranking_node_error, Option.getD_none, he1]
    have hb := respondPhase_no_error env k s2 h
    refine ⟨hb.1, ?_⟩
    intro p hp
    simp only [List.mem_cons] at hp
    rcases hp with rfl | rfl | hp
    · exact he1
    · exact he2
    · exact hb.2 p hp
  · have he1 : s1.error = none := by
      by_contra hc
      exact h1 ((should_rerank_eq_error_iff s1).2 (Option.ne_none_iff_isSome.1 hc))
    have hb := respondPhase_no_error env k s1 h
    refine ⟨hb.1, ?_⟩
    intro p hp
    simp only [List.mem_cons] at hp
    rcases hp with rfl | hp
    · exact he1
    · exact hb.2 p hp

theorem passBody_len (env : Env) (k : ℕ) (st : AgentState) :
    (passBody env k st).1.length ≤ 5 := by
  simp only [passBody]
  split_ifs with h1 h2
  · simp
  · have := retrievePhase_len env k
      (applyUpdate st (query_rewrite_node (env.rewriteLM k) st))
    simp only [List.length_cons]
    omega
  · simp [respondPhase_len]

theorem passBody_bound (env : Env) (k : ℕ) (st : AgentState)
    (h : st.retry_count ≤ 2) :
    (∀ p ∈ (passBody env k st).1, p.2.retry_count ≤ 2) ∧
      (passBody env k st).2.1.retry_count ≤ 2 := by
  simp only [passBody]
  set s1 := applyUpdate st (query_rewrite_node (env.rewriteLM k) st) with hs1
  have hr1 : s1.retry_count = st.retry_count := by
    rw [hs1, applyUpdate_retry_count, query_rewrite_node_retry_count, Option.getD_none]
  split_ifs with h1 h2
  · constructor
    · intro p hp
      simp only [List.mem_cons, List.not_mem_nil, or_false] at hp
      rw [hp]
      show s1.retry_count ≤ 2
      omega
    · show s1.retry_count ≤ 2
      omega
  · have hb := retrievePhase_bound env k s1 (by omega)
    constructor
    · intro p hp
      simp only [List.mem_cons] at hp
      rcases hp with rfl | hp
      · show s1.retry_count ≤ 2
        omega
      · exact hb.1 p hp
    · exact hb.2
  · have hb := respondPhase_bound env k s1 (by omega)
    constructor
    · intro p hp
      simp only [List.mem_cons] at hp
      rcases hp with rfl | hp
      · show s1.retry_count ≤ 2
        omega
      · exact hb.1 p hp
    · exact hb.2

theorem passBody_retry_decision (env : Env) (k : ℕ) (st : AgentState)
    (h : (passBody env k st).2.2 = PassDecision.retry) :
    st.retry_count = 0 ∧ (passBody env k st).2.1.retry_count = 1 := by
  simp only [passBody] at h ⊢
  set s1 := applyUpdate st (query_rewrite_node (env.rewriteLM k) st) with hs1
  have hr1 : s1.retry_count = st.retry_count := by
    rw [hs1, applyUpdate_retry_count, query_rewrite_node_retry_count, Option.getD_none]
  by_cases h1 : should_retrieve s1 = "error"
  · rw [if_pos h1] at h
    exact PassDecision.noConfusion h
  · rw [if_neg h1] at h ⊢
    by_cases h2 : should_retrieve s1 = "retrieve"
    · rw [if_pos h2] at h ⊢
      have hd := retrievePhase_retry_decision env k s1 h
      exact ⟨by omega, hd.2⟩
    · rw [if_neg h2] at h ⊢
      have hd := respondPhase_retry_decision env k s1 h
      exact ⟨by omega, hd.2⟩

theorem passBody_no_error (env : Env) (k : ℕ) (st : AgentState)
    (h0 : st.error = none)
    (h : (passBody env k st).2.2 ≠ PassDecision.toError) :
    (passBody env k st).2.1.error = none ∧
      ∀ p ∈ (passBody env k st).1, p.2.error = none := by
  simp only [passBody] at h ⊢
  set s1 := applyUpdate st (query_rewrite_node (env.rewriteLM k) st) with hs1
  have he1 : s1.error = none := by
    rw [hs1, applyUpdate_error, query_rewrite_node_error, Option.getD_none, h0]
  split_ifs at h ⊢ with h1 h2
  · exact absurd rfl h
  · have hb := retrievePhase_no_error env k s1 he1 h
    refine ⟨hb.1, ?_⟩
    intro p hp
    simp only [List.mem_cons] at hp
    rcases hp with rfl | hp
    · exact he1
    · exact hb.2 p hp
  · have hb := respondPhase_no_error env k s1 h
    refine ⟨hb.1, ?_⟩
    intro p hp
    simp only [List.mem_cons] at hp
    rcases hp with rfl | hp
    · exact he1
    · exact hb.2 p hp

/-! ## Helper lemmas: the fueled loop -/

theorem runLoop_len (env : Env) :
    ∀ (fuel k : ℕ) (st : AgentState),
      (runLoop env k fuel st).1.length ≤ 5 * fuel + 1 := by
  intro fuel
  induction fuel with
  | zero =>
    intro k st
    simp [runLoop]
  | succ fuel ih =>
    intro k st
    have hlen := passBody_len env k st
    rcases hp : passBody env k st with ⟨tr, fin, d⟩
    have hlen2 : tr.length ≤ 5 := by
      rw [hp] at hlen
      exact hlen
    cases d with
    | toEnd =>
      simp only [runLoop, hp]
      omega
    | toError =>
      simp only [runLoop, hp, List.length_append, List.length_cons, List.length_nil]
      omega
    | retry =>
      have hrest := ih (k + 1) fin
      simp only [runLoop, hp, List.length_append]
      omega

theorem runLoop_bound (env : Env) :
    ∀ (fuel k : ℕ) (st : AgentState), st.retry_count ≤ 2 →
      (∀ p ∈ (runLoop env k fuel st).1, p.2.retry_count ≤ 2) ∧
        (runLoop env k fuel st).2.retry_count ≤ 2 := by
  intro fuel
  induction fuel with
  | zero =>
    intro k st h
    simp only [runLoop]
    exact ⟨fun p hp => absurd hp (List.not_mem_nil p), h⟩
  | succ fuel ih =>
    intro k st h
    have hb := passBody_bound env k st h
    rcases hp : passBody env k st with ⟨tr, fin, d⟩
    rw [hp] at hb
    have htr : ∀ p ∈ tr, p.2.retry_count ≤ 2 := hb.1
    have hfin : fin.retry_count ≤ 2 := hb.2
    cases d with
    | toEnd =>
      simp only [runLoop, hp]
      exact ⟨htr, hfin⟩
    | toError =>
      have he : (applyUpdate fin (error_handling_node env.errorExc fin)).retry_count ≤ 2 := by
        rw [applyUpdate_retry_count, error_handling_node_retry_count, Option.getD_none]
        exact hfin
      simp only [runLoop, hp]
      constructor
      · intro p hp2
        rcases List.mem_append.1 hp2 with hp2 | hp2
        · exact htr p hp2
        · simp only [List.mem_cons, List.not_mem_nil, or_false] at hp2
          rw [hp2]
          exact he
      · exact he
    | retry =>
      have hrest := ih (k + 1) fin hfin
      simp only [runLoop, hp]
      constructor
      · intro p hp2
        rcases List.mem_append.1 hp2 with hp2 | hp2
        · exact htr p hp2
        · exact hrest.1 p hp2
      · exact hrest.2

theorem runLoop_error_final (env : Env) :
    ∀ (fuel k : ℕ) (st : AgentState), st.error = none →
      (∃ p ∈ (runLoop env k fuel st).1, p.2.error.isSome) →
      (runLoop env k fuel st).2.final_response ≠ none ∧
        (runLoop env k fuel st).2.final_response ≠ some "" ∧
        (runLoop env k fuel st).2.completed_at = some () := by
  intro fuel
  induction fuel with
  | zero =>
    intro k st h0 hex
    simp only [runLoop] at hex
    obtain ⟨p, hp, -⟩ := hex
    cases hp
  | succ fuel ih =>
    intro k st h0 hex
    rcases hp : passBody env k st with ⟨tr, fin, d⟩
    cases d with
    | toEnd =>
      exfalso
      have hne := passBody_no_error env k st h0 (by rw [hp]; intro hc; cases hc)
      rw [hp] at hne
      simp only [runLoop, hp] at hex
      obtain ⟨p, hmem, hsome⟩ := hex
      rw [hne.2 p hmem] at hsome
      cases hsome
    | toError =>
      simp only [runLoop, hp]
      exact errorNode_final env.errorExc fin
    | retry =>
      have hne := passBody_no_error env k st h0 (by rw [hp]; intro hc; cases hc)
      rw [hp] at hne
      simp only [runLoop, hp] at hex ⊢
      obtain ⟨p, hmem, hsome⟩ := hex
      rcases List.mem_append.1 hmem with hmem | hmem
      · rw [hne.2 p hmem] at hsome
        cases hsome
      · exact ih (k + 1) fin hne.1 ⟨p, hmem, hsome⟩

theorem runLoop_fuel_one (env : Env) :
    ∀ (fuel k : ℕ) (st : AgentState), 1 ≤ fuel → st.retry_count ≠ 0 →
      runLoop env k fuel st = runLoop env k 1 st := by
  intro fuel
  cases fuel with
  | zero => intro k st h; omega
  | succ fuel =>
    intro k st _ hr
    rcases hp : passBody env k st with ⟨tr, fin, d⟩
    cases d with
    | toEnd => simp only [runLoop, hp]
    | toError => simp only [runLoop, hp]
    | retry =>
      exfalso
      have := passBody_retry_decision env k st (by rw [hp])
      exact hr this.1

theorem runLoop_succ_retry (env : Env) (k fuel : ℕ) (st : AgentState)
    (tr : List (String × AgentState)) (fin : AgentState)
    (hp : passBody env k st = (tr, fin, PassDecision.retry)) :
    runLoop env k (fuel + 1) st =
      (tr ++ (runLoop env (k + 1) fuel fin).1, (runLoop env (k + 1) fuel fin).2) := by
  rw [runLoop, hp]

theorem runLoop_fuel_two (env : Env) :
    ∀ (fuel k : ℕ) (st : AgentState), 2 ≤ fuel →
      runLoop env k fuel st = runLoop env k 2 st := by
  intro fuel
  match fuel with
  | 0 => intro k st h; omega
  | 1 => intro k st h; omega
  | fuel + 2 =>
    intro k st _
    rcases hp : passBody env k st with ⟨tr, fin, d⟩
    cases d with
    | toEnd => simp only [runLoop, hp]
    | toError => simp only [runLoop, hp]
    | retry =>
      have hd := passBody_retry_decision env k st (by rw [hp])
      have hfin : fin.retry_count = 1 := by
        have := hd.2
        rw [hp] at this
        exact this
      have h1 : runLoop env (k + 1) (fuel + 1) fin = runLoop env (k + 1) 1 fin :=
        runLoop_fuel_one env (fuel + 1) (k + 1) fin (by omega) (by omega)
      rw [runLoop_succ_retry env k (fuel + 1) st tr fin hp,
        runLoop_succ_retry env k 1 st tr fin hp, h1]

theorem applyUpdate_needs_rewrite (st : AgentState) (u : NodeUpdate) :
    (applyUpdate st u).needs_rewrite = u.needs_rewrite.getD st.needs_rewrite := rfl

/-! ## Helper lemmas: run_agent -/

theorem analyze_state_error (env : Env) (t u s q : String) :
    (applyUpdate (create_initial_state t u s q)
      (query_analysis_node env.analyze (create_initial_state t u s q))).error = none := by
  rw [applyUpdate_error, query_analysis_node_error, Option.getD_none]
  rfl

theorem analyze_state_retry (env : Env) (t u s q : String) :
    (applyUpdate (create_initial_state t u s q)
      (query_analysis_node env.analyze (create_initial_state t u s q))).retry_count = 0 := by
  rw [applyUpdate_retry_count, query_analysis_node_retry_count, Option.getD_none]
  rfl

/-- `run_agent` always takes the non-error route after the analysis node,
because `query_analysis_node` never sets the error field. -/
theorem run_agent_eq (env : Env) (t u s q : String) :
    run_agent env t u s q =
      (("analyze", applyUpdate (create_initial_state t u s q)
          (query_analysis_node env.analyze (create_initial_state t u s q))) ::
        (runLoop env 0 2 (applyUpdate (create_initial_state t u s q)
          (query_analysis_node env.analyze (create_initial_state t u s q)))).1,
       (runLoop env 0 2 (applyUpdate (create_initial_state t u s q)
          (query_analysis_node env.analyze (create_initial_state t u s q)))).2) := by
  have hroute : ¬(route_after_analysis (applyUpdate (create_initial_state t u s q)
      (query_analysis_node env.analyze (create_initial_state t u s q))) = "error") := by
    rw [route_after_analysis_eq_error_iff, analyze_state_error]
    exact fun hc => Bool.noConfusion hc
  simp only [run_agent]
  rw [if_neg hroute]

/-! ## Claim C1: validation retry routing -/

/-- C1 counterexample: with a rejected draft and retryCount = 1 (strictly
below the maximum 2), the validation node does increment the counter to 2 and
set needsRewrite, but `should_retry` — which reads the already-incremented
counter — routes to "end", not back to "rewrite" as the claim states. -/
theorem claim_c1_counterexample :
    (applyUpdate stRejected1 (validation_node none stRejected1)).retry_count = 2 ∧
    (applyUpdate stRejected1 (validation_node none stRejected1)).needs_rewrite = true ∧
    should_retry (applyUpdate stRejected1 (validation_node none stRejected1)) = "end" ∧
    "end" ≠ "rewrite" := by decide

/-- C1 (amended): after `validate` on a rejected draft with no error, a
pre-state counter of 0 is incremented to 1, needsRewrite is set, and the run
routes back to rewrite; a pre-state counter of 1 is incremented to 2 and
needsRewrite is set, but the run routes to end (the routing predicate checks
the post-increment counter); a pre-state counter of at least 2 is left
unchanged and the run routes to end with the rejected answer still in
finalResponse. -/
theorem claim_c1_amended (st : AgentState) (r : String)
    (herr : st.error = none) (hresp : st.final_response = some r)
    (hrej : isValidResponse r = false) :
    (st.retry_count = 0 →
      (applyUpdate st (validation_node none st)).retry_count = 1 ∧
      (applyUpdate st (validation_node none st)).needs_rewrite = true ∧
      should_retry (applyUpdate st (validation_node none st)) = "rewrite") ∧
    (st.retry_count = 1 →
      (applyUpdate st (validation_node none st)).retry_count = 2 ∧
      (applyUpdate st (validation_node none st)).needs_rewrite = true ∧
      should_retry (applyUpdate st (validation_node none st)) = "end") ∧
    (2 ≤ st.retry_count →
      (applyUpdate st (validation_node none st)).retry_count = st.retry_count ∧
      should_retry (applyUpdate st (validation_node none st)) = "end" ∧
      (applyUpdate st (validation_node none st)).final_response = some r) := by
  have hfail : st.retry_count < 2 →
      validation_node none st =
        { agent_thoughts := ["Response needs improvement, retrying..."]
          current_step := some "validation_failed"
          retry_count := some (st.retry_count + 1)
          needs_rewrite := some true } := by
    intro hlt
    simp only [validation_node]
    split
    · rename_i heq
      rw [hresp] at heq
      cases heq
    · rename_i r2 heq
      rw [hresp] at heq
      injection heq with heq2
      subst heq2
      split
      · rfl
      · rename_i hc
        exact absurd ⟨by rw [hrej]; rfl, hlt⟩ hc
  have hok : 2 ≤ st.retry_count →
      validation_node none st =
        { agent_thoughts := ["Response validated successfully"]
          current_step := some "validated" } := by
    intro hge
    simp only [validation_node]
    split
    · rename_i heq
      rw [hresp] at heq
      cases heq
    · rename_i r2 heq
      rw [hresp] at heq
      injection heq with heq2
      subst heq2
      split
      · rename_i hc
        exact absurd hc.2 (by omega)
      · rfl
  refine ⟨fun hc => ?_, fun hc => ?_, fun hge => ?_⟩
  · rw [hfail (by omega)]
    refine ⟨?_, ?_, ?_⟩
    · rw [applyUpdate_retry_count]
      simp [hc]
    · rw [applyUpdate_needs_rewrite]
      rfl
    · simp [should_retry, applyUpdate_error, applyUpdate_current_step,
        applyUpdate_retry_count, herr, hc]
  · rw [hfail (by omega)]
    refine ⟨?_, ?_, ?_⟩
    · rw [applyUpdate_retry_count]
      simp [hc]
    · rw [applyUpdate_needs_rewrite]
      rfl
    · simp [should_retry, applyUpdate_error, applyUpdate_current_step,
        applyUpdate_retry_count, herr, hc]
  · rw [hok hge]
    refine ⟨?_, ?_, ?_⟩
    · rw [applyUpdate_retry_count]
      rfl
    · simp [should_retry, applyUpdate_error, applyUpdate_current_step,
        applyUpdate_retry_count, herr]
    · rw [applyUpdate_final_response]
      simpa using hresp

/-- C1 witness: the amended theorem applied to the fresh rejected state. -/
theorem claim_c1_witness :
    (applyUpdate stRejected0 (validation_node none stRejected0)).retry_count = 1 ∧
    (applyUpdate stRejected0 (validation_node none stRejected0)).needs_rewrite = true ∧
    should_retry (applyUpdate stRejected0 (validation_node none stRejected0)) = "rewrite" :=
  (claim_c1_amended stRejected0 "bad" rfl rfl (by decide)).1 rfl

/-! ## Claim C2: the retry counter is bounded by 2 -/

/-- C2: the retry counter starts at 0, the validation node increments it only
when it is strictly below 2 (and by exactly one), and in every state reached
during a run of `run_agent` — as well as in the returned state — it never
exceeds 2. -/
theorem claim_c2_retry_bound :
    (∀ t u s q, (create_initial_state t u s q).retry_count = 0) ∧
    (∀ exc st n, (validation_node exc st).retry_count = some n →
      st.retry_count < 2 ∧ n = st.retry_count + 1) ∧
    (∀ env t u s q, ∀ p ∈ (run_agent env t u s q).1, p.2.retry_count ≤ 2) ∧
    (∀ env t u s q, (run_agent env t u s q).2.retry_count ≤ 2) := by
  refine ⟨fun t u s q => rfl, ?_, ?_, ?_⟩
  · intro exc st n h
    rcases validation_node_spec exc st with ⟨-, hr⟩ | ⟨-, hr, hlt⟩
    · rw [hr] at h
      cases h
    · rw [hr] at h
      injection h with h
      exact ⟨hlt, h.symm⟩
  · intro env t u s q p hp
    rw [run_agent_eq] at hp
    simp only [List.mem_cons] at hp
    rcases hp with rfl | hp
    · show (applyUpdate (create_initial_state t u s q)
        (query_analysis_node env.analyze (create_initial_state t u s q))).retry_count ≤ 2
      rw [analyze_state_retry]
      omega
    · exact (runLoop_bound env 2 0 _ (by rw [analyze_state_retry]; omega)).1 p hp
  · intro env t u s q
    rw [run_agent_eq]
    exact (runLoop_bound env 2 0 _ (by rw [analyze_state_retry]; omega)).2

/-- C2 witness: the increment part at a concrete rejected state, the trace
part at the analyze entry of a failing run, and the final-state part of the
same run. -/
theorem claim_c2_witness :
    (stRejected0.retry_count < 2 ∧ 1 = stRejected0.retry_count + 1) ∧
    pW.2.retry_count ≤ 2 ∧
    (run_agent envToolRaises "t" "u" "s" "q").2.retry_count ≤ 2 :=
  ⟨claim_c2_retry_bound.2.1 none stRejected0 1 (by decide),
   claim_c2_retry_bound.2.2.1 envToolRaises "t" "u" "s" "q" pW (by decide),
   claim_c2_retry_bound.2.2.2 envToolRaises "t" "u" "s" "q"⟩

/-! ## Claim C3: termination bound -/

/-- C3 counterexample: the environment `envEleven` (retrieval intent, four
documents, always-rejected draft) makes one run execute 11 nodes — analyze
plus two full rewrite–retrieve–rerank–respond–validate passes — exceeding the
claimed bound of 7 node executions. -/
theorem claim_c3_counterexample :
    (run_agent envEleven "t" "u" "s" "q").1.length = 11 ∧
    ¬((run_agent envEleven "t" "u" "s" "q").1.length ≤ 7) := by decide

/-- C3 (amended): every run terminates — the fueled loop is independent of
the fuel beyond 2, so the recursion genuinely completes within two passes —
and executes at most 12 nodes (analyze, at most one full 5-node pass that
retries, at most one full 5-node pass that does not, and possibly the error
node); the spec bound of 2 + 2·maxRetries + 1 = 7 is too small because each
retry re-runs retrieve and rerank as well. -/
theorem claim_c3_amended :
    (∀ env t u s q, (run_agent env t u s q).1.length ≤ 12) ∧
    (∀ env k st fuel, 2 ≤ fuel → runLoop env k fuel st = runLoop env k 2 st) := by
  constructor
  · intro env t u s q
    rw [run_agent_eq]
    have := runLoop_len env 2 0 (applyUpdate (create_initial_state t u s q)
      (query_analysis_node env.analyze (create_initial_state t u s q)))
    simp only [List.length_cons]
    omega
  · intro env k st fuel h
    exact runLoop_fuel_two env fuel k st h

/-- C3 witness: fuel 5 and fuel 2 agree on a concrete loop run. -/
theorem claim_c3_witness :
    runLoop envEleven 0 5 stBase = runLoop envEleven 0 2 stBase :=
  claim_c3_amended.2 envEleven 0 stBase 5 (by omega)

/-! ## Claim C4: error fallback guarantee -/

/-- C4: if any node execution of a run leaves the error field set, the state
returned by `run_agent` carries a non-empty final response (the error-node
fallback) and a completion stamp: every execution that routes through the
error node still ends with a displayable answer. -/
theorem claim_c4_error_fallback (env : Env) (t u s q : String)
    (h : ∃ p ∈ (run_agent env t u s q).1, p.2.error.isSome) :
    (run_agent env t u s q).2.final_response ≠ none ∧
    (run_agent env t u s q).2.final_response ≠ some "" ∧
    (run_agent env t u s q).2.completed_at = some () := by
  rw [run_agent_eq] at h ⊢
  obtain ⟨p, hp, hsome⟩ := h
  simp only [List.mem_cons] at hp
  rcases hp with rfl | hp
  · exfalso
    have : (applyUpdate (create_initial_state t u s q)
        (query_analysis_node env.analyze (create_initial_state t u s q))).error = none :=
      analyze_state_error env t u s q
    rw [this] at hsome
    cases hsome
  · exact runLoop_error_final env 2 0 _ (analyze_state_error env t u s q) ⟨p, hp, hsome⟩

/-- C4 witness: in the run where the vector-search tool raises, some trace
state carries the error, and the returned state has the fallback response and
the completion stamp. -/
theorem claim_c4_witness :
    (run_agent envToolRaises "t" "u" "s" "q").2.final_response ≠ none ∧
    (run_agent envToolRaises "t" "u" "s" "q").2.final_response ≠ some "" ∧
    (run_agent envToolRaises "t" "u" "s" "q").2.completed_at = some () :=
  claim_c4_error_fallback envToolRaises "t" "u" "s" "q" (by decide)

/-! ## Claim C5: reciprocal rank fusion formula -/

/-- C5: each list contributes weight / (k + rank + 1) — weight alpha for
dense, 1 - alpha for sparse — summed over the positions holding the
document; in particular a document at rank 0 of both lists with alpha = 1/2
and k = 60 scores exactly 1/61, and a document at rank 0 of the dense list
only scores alpha/61. -/
theorem claim_c5_fusion :
    (∀ (sparse dense : List (String × ℚ)) (α kc : ℚ) (d : String),
      dictGetD (reciprocal_rank_fusion sparse dense α kc) d 0 =
        rrfContrib (1 - α) kc d (sparse.map Prod.fst) 0 +
          rrfContrib α kc d (dense.map Prod.fst) 0) ∧
    (∀ (d : String) (s1 s2 : ℚ) (rest1 rest2 : List (String × ℚ)),
      d ∉ rest1.map Prod.fst → d ∉ rest2.map Prod.fst →
      dictGetD (reciprocal_rank_fusion ((d, s1) :: rest1) ((d, s2) :: rest2) (1/2) 60) d 0 =
        1 / 61) ∧
    (∀ (d : String) (s : ℚ) (rest sparse : List (String × ℚ)) (α : ℚ),
      d ∉ sparse.map Prod.fst → d ∉ rest.map Prod.fst →
      dictGetD (reciprocal_rank_fusion sparse ((d, s) :: rest) α 60) d 0 = α / 61) := by
  have hgen : ∀ (sparse dense : List (String × ℚ)) (α kc : ℚ) (d : String),
      dictGetD (reciprocal_rank_fusion sparse dense α kc) d 0 =
        rrfContrib (1 - α) kc d (sparse.map Prod.fst) 0 +
          rrfContrib α kc d (dense.map Prod.fst) 0 := by
    intro sparse dense α kc d
    unfold reciprocal_rank_fusion
    rw [dictGetD_addRRF, dictGetD_addRRF]
    simp [dictGetD]
  refine ⟨hgen, ?_, ?_⟩
  · intro d s1 s2 rest1 rest2 h1 h2
    rw [hgen]
    simp [rrfContrib, rrfContrib_of_not_mem _ _ _ _ h1, rrfContrib_of_not_mem _ _ _ _ h2]
    norm_num
  · intro d s rest sparse α h1 h2
    rw [hgen]
    simp [rrfContrib, rrfContrib_of_not_mem _ _ _ _ h1, rrfContrib_of_not_mem _ _ _ _ h2]
    norm_num

/-- C5 witness: concrete one-element lists. -/
theorem claim_c5_witness :
    dictGetD (reciprocal_rank_fusion [("a", (5:ℚ))] [("a", (9:ℚ))] (1/2) 60) "a" 0 = 1 / 61 ∧
    dictGetD (reciprocal_rank_fusion [] [("b", (7:ℚ))] (1/3) 60) "b" 0 = (1/3) / 61 :=
  ⟨claim_c5_fusion.2.1 "a" 5 9 [] [] (by simp) (by simp),
   claim_c5_fusion.2.2 "b" 7 [] [] (1/3) (by simp) (by simp)⟩

/-! ## Claim C6: node exception handling -/

/-- C6 counterexample: when the LLM call inside the query-analysis node
raises, the node swallows the exception, leaves the error field unset, and
reports the ordinary step "query_analyzed" — it does not convert the
exception into an error state with a failed step marker as the claim
states. -/
theorem claim_c6_counterexample :
    (query_analysis_node (AnalyzeOutcome.raised "boom") stBase).error = none ∧
    (query_analysis_node (AnalyzeOutcome.raised "boom") stBase).current_step =
      some "query_analyzed" ∧
    some "query_analyzed" ≠ some "analyze_failed" := by decide

/-- C6 (amended): no node ever propagates an internal exception, but only
the retrieval and response-generation nodes convert it into an error field
plus a failed step; the analysis, rewrite, reranking, validation and
error-handling nodes recover with default values, leaving the error field
unset and reporting their ordinary step names. -/
theorem claim_c6_amended (st : AgentState) (msg : String) :
    ((query_analysis_node (AnalyzeOutcome.raised msg) st).error = none ∧
      (query_analysis_node (AnalyzeOutcome.raised msg) st).current_step =
        some "query_analyzed") ∧
    (query_rewrite_node (Except.error msg) st).error = none ∧
    ((retrieval_node (ToolOutcome.raised msg) st).error = some (some msg) ∧
      (retrieval_node (ToolOutcome.raised msg) st).current_step =
        some "retrieval_failed") ∧
    ((reranking_node (some msg) st).error = none ∧
      (reranking_node (some msg) st).current_step = some "documents_ready") ∧
    ((response_generation_node (Except.error msg) st).error = some (some msg) ∧
      (response_generation_node (Except.error msg) st).current_step =
        some "response_failed") ∧
    ((validation_node (some msg) st).error = none ∧
      (validation_node (some msg) st).current_step = some "validated") ∧
    ((error_handling_node (some msg) st).error = none ∧
      (error_handling_node (some msg) st).current_step = some "error_handled") :=
  ⟨⟨rfl, rfl⟩, query_rewrite_node_error (Except.error msg) st, ⟨rfl, rfl⟩,
    ⟨rfl, rfl⟩, ⟨rfl, rfl⟩, ⟨rfl, rfl⟩, ⟨rfl, rfl⟩⟩

/-! ## Claim C7: reranking as a reordering -/

/-- C7 counterexample: the reranking node with four retrieved documents
returns only the three highest-scoring ones: the lowest-scoring input
document is dropped, so the returned set is not the set passed in. -/
theorem claim_c7_counterexample :
    (reranking_node none stFourDocs).reranked_documents =
      some [⟨"d4", 4⟩, ⟨"d3", 3⟩, ⟨"d2", 2⟩] ∧
    (⟨"d1", 1⟩ : Doc) ∈ stFourDocs.retrieved_documents ∧
    (⟨"d1", 1⟩ : Doc) ∉ [(⟨"d4", 4⟩ : Doc), ⟨"d3", 3⟩, ⟨"d2", 2⟩] := by decide

/-- C7 (amended): re-ranking never invents documents — its output is a
sub-permutation of its input — and it is a pure reordering exactly when the
input fits under the truncation cutoff (`top_k` for `rerank_results`, 3 for
the workflow node); above the cutoff the lowest-ranked documents are
dropped. -/
theorem claim_c7_amended :
    (∀ predict q docs tk,
      List.Subperm ((rerank_results predict q docs tk).map Prod.fst) docs) ∧
    (∀ predict q docs tk scores,
      predict (docs.map fun d => (q, d)) = Except.ok scores →
      docs.length ≤ scores.length → docs.length ≤ tk →
      List.Perm ((rerank_results predict q docs tk).map Prod.fst) docs) ∧
    (∀ exc st l, (reranking_node exc st).reranked_documents = some l →
      List.Subperm l st.retrieved_documents ∧
      (st.retrieved_documents.length ≤ 3 → l = st.retrieved_documents)) := by
  refine ⟨?_, ?_, ?_⟩
  · intro predict q docs tk
    unfold rerank_results
    split
    · simp only [List.map_nil]
      exact List.nil_subperm
    · split
      · rename_i scores heq
        rw [List.map_take]
        have h1 := List.take_sublist tk ((sortByDesc Prod.snd (docs.zip scores)).map Prod.fst)
        have h2 := (sortByDesc_perm Prod.snd (docs.zip scores)).map Prod.fst
        have h3 := map_fst_zip_sublist docs scores
        exact (h1.subperm.trans h2.subperm).trans h3.subperm
      · rename_i heq
        have hmm : ((docs.take tk).map fun d => (d, (0:ℚ))).map Prod.fst = docs.take tk := by
          rw [List.map_map]
          exact List.map_id (docs.take tk)
        rw [hmm]
        exact (List.take_sublist tk docs).subperm
  · intro predict q docs tk scores hpred hlen htk
    unfold rerank_results
    split
    · rename_i h0
      have : docs = [] := List.length_eq_zero.1 h0
      subst this
      simp
    · rw [hpred]
      show List.Perm
        (((sortByDesc Prod.snd (docs.zip scores)).take tk).map Prod.fst) docs
      have hlen3 : (sortByDesc Prod.snd (docs.zip scores)).length ≤ tk := by
        rw [(sortByDesc_perm Prod.snd (docs.zip scores)).length_eq, List.length_zip]
        omega
      rw [List.take_of_length_le hlen3]
      have hperm := (sortByDesc_perm Prod.snd (docs.zip scores)).map Prod.fst
      rw [List.map_fst_zip docs scores hlen] at hperm
      exact hperm
  · intro exc st l hl
    cases exc with
    | some msg =>
      have hl2 : some st.retrieved_documents = some l := hl
      injection hl2 with hl3
      subst hl3
      exact ⟨List.Subperm.refl _, fun _ => rfl⟩
    | none =>
      simp only [reranking_node] at hl
      split at hl
      · rename_i hle
        have hl2 : some st.retrieved_documents = some l := hl
        injection hl2 with hl3
        subst hl3
        exact ⟨List.Subperm.refl _, fun _ => rfl⟩
      · rename_i hgt
        have hl2 : some ((sortByDesc Doc.score st.retrieved_documents).take 3) = some l := hl
        injection hl2 with hl3
        subst hl3
        refine ⟨?_, fun hle => absurd hle hgt⟩
        exact (List.take_sublist 3 _).subperm.trans
          (sortByDesc_perm Doc.score st.retrieved_documents).subperm

/-- C7 witness: the permutation part on two documents that fit under the
cutoff, and the sub-permutation part at the same input. -/
theorem claim_c7_witness :
    List.Perm ((rerank_results predictW "q" ["a", "b"] 10).map Prod.fst) ["a", "b"] ∧
    List.Subperm ((rerank_results predictW "q" ["a", "b"] 10).map Prod.fst) ["a", "b"] ∧
    List.Subperm ([] : List Doc) stBase.retrieved_documents :=
  ⟨claim_c7_amended.2.1 predictW "q" ["a", "b"] 10 [1, 1] rfl (by decide) (by decide),
   claim_c7_amended.1 predictW "q" ["a", "b"] 10,
   (claim_c7_amended.2.2 none stBase [] rfl).1⟩

/-! ## Claim C8: collaborator-failure fallback -/

/-- When the embedding collaborator raises on the query, dense retrieval
returns the empty list (the except branch of `retrieve_dense`). -/
theorem retrieve_dense_encode_fail (norm : List ℚ → ℚ)
    (encode : String → Except String (List ℚ)) (q : String) (docs : List String)
    (tk : ℕ) (e : String) (h : encode q = Except.error e) :
    retrieve_dense norm encode q docs tk = [] := by
  unfold retrieve_dense
  rw [h]
  rfl

/-- C8 counterexample: with a working embedding collaborator and a raising
cross-encoder, `hybrid_retrieve` returns the fused candidates ["b", "a"] with
zeroed scores — not the sparse-only BM25 ranking, which contains only "b"
(document "a" has BM25 score 0 for this query and is excluded by the sparse
ranking). -/
theorem claim_c8_counterexample :
    (hybrid_retrieve pEx normEx encodeEx predictFail "b" ["a", "b"] 10 (1/2) true).map
      Prod.fst = ["b", "a"] ∧
    (retrieve_sparse pEx ["a", "b"] "b" 20).map Prod.fst = ["b"] :=
  ⟨by with_unfolding_all rfl, by with_unfolding_all rfl⟩

/-- C8 (amended): no collaborator failure propagates out of
`hybrid_retrieve`.  If the embedding collaborator raises, the run degrades to
the sparse-only pipeline (dense contributes nothing, so every candidate comes
from the BM25 ranking); if the cross-encoder raises, the run returns the
pre-rerank fused candidate ranking truncated to top_k with zeroed scores —
which still mixes the dense contribution when the embedding succeeded. -/
theorem claim_c8_amended :
    (∀ p norm encode predict q docs tk α rr e, encode q = Except.error e →
      hybrid_retrieve p norm encode predict q docs tk α rr =
        sparseOnlyPipeline p predict q docs tk α rr) ∧
    (∀ p norm encode predict q docs tk α e,
      (∀ pairs, predict pairs = Except.error e) →
      hybrid_retrieve p norm encode predict q docs tk α true =
        (((fusedCandidates p norm encode q docs tk α).map Prod.fst).take tk).map
          fun d => (d, 0)) := by
  constructor
  · intro p norm encode predict q docs tk α rr e h
    unfold hybrid_retrieve sparseOnlyPipeline
    rw [retrieve_dense_encode_fail norm encode q docs (tk * 2) e h]
  · intro p norm encode predict q docs tk α e hpred
    simp only [hybrid_retrieve, fusedCandidates]
    set sorted := (sortByDesc Prod.snd
      (reciprocal_rank_fusion (retrieve_sparse p docs q (tk * 2))
        (retrieve_dense norm encode q docs (tk * 2)) α 60)).take (tk * 2) with hsorted
    by_cases h0 : 0 < sorted.length
    · rw [if_pos ⟨trivial, h0⟩]
      simp only [rerank_results]
      rw [if_neg (by rw [List.length_map]; omega)]
      rw [hpred]
    · rw [if_neg (by rintro ⟨-, hc⟩; exact h0 hc)]
      have hnil : sorted = [] := List.length_eq_zero.1 (by omega)
      rw [hnil]
      simp only [List.take_nil, List.map_nil]

/-- C8 witness: the embedding-failure part and the rerank-failure part of
the amended theorem, each at a concrete instance. -/
theorem claim_c8_witness :
    hybrid_retrieve pEx normEx encodeFailEx predictW "b" ["a", "b"] 10 (1/2) true =
      sparseOnlyPipeline pEx predictW "b" ["a", "b"] 10 (1/2) true ∧
    hybrid_retrieve pEx normEx encodeEx predictFail "b" ["a", "b"] 10 (1/2) true =
      (((fusedCandidates pEx normEx encodeEx "b" ["a", "b"] 10 (1/2)).map Prod.fst).take
        10).map fun d => (d, 0) :=
  ⟨claim_c8_amended.1 pEx normEx encodeFailEx predictW "b" ["a", "b"] 10 (1/2) true
      "down" rfl,
   claim_c8_amended.2 pEx normEx encodeEx predictFail "b" ["a", "b"] 10 (1/2) "oom"
      fun _ => rfl⟩

/-! ## Claim C9: fusion is score-oblivious -/

/-- C9: reciprocal rank fusion depends only on the order of the documents in
its two input lists, never on the attached scores: inputs with identical
document sequences and arbitrary different scores fuse to exactly the same
score dictionary. -/
theorem claim_c9_score_oblivious (sparse dense sparse2 dense2 : List (String × ℚ))
    (α kc : ℚ)
    (h1 : sparse.map Prod.fst = sparse2.map Prod.fst)
    (h2 : dense.map Prod.fst = dense2.map Prod.fst) :
    reciprocal_rank_fusion sparse dense α kc =
      reciprocal_rank_fusion sparse2 dense2 α kc := by
  unfold reciprocal_rank_fusion
  rw [addRRF_congr_fst (1 - α) kc sparse sparse2 h1 [] 0]
  exact addRRF_congr_fst α kc dense dense2 h2 _ 0

/-- C9 witness: same document order, different scores, identical fusion. -/
theorem claim_c9_witness :
    reciprocal_rank_fusion [("a", (5:ℚ)), ("b", 1)] [("b", (9:ℚ))] (1/2) 60 =
      reciprocal_rank_fusion [("a", (100:ℚ)), ("b", 0)] [("b", (-3:ℚ))] (1/2) 60 :=
  claim_c9_score_oblivious _ _ _ _ (1/2) 60 rfl rfl

/-! ## Claim C10: sparse retrieval returns only positive BM25 scores -/

/-- C10: every pair returned by `retrieve_sparse` has a strictly positive
score (the comprehension filters on score > 0), and when the query shares no
token with any corpus document every BM25 score is 0, so the result is empty
regardless of top_k and corpus size — the function may thus return fewer than
top_k results. -/
theorem claim_c10_sparse_positive :
    (∀ p docs q tk d s, (d, s) ∈ retrieve_sparse p docs q tk → 0 < s) ∧
    (∀ p docs q tk, (∀ dt ∈ docs, ∀ t ∈ pyTokens q, t ∉ pyTokens dt) →
      retrieve_sparse p docs q tk = []) := by
  constructor
  · intro p docs q tk d s hmem
    simp only [retrieve_sparse] at hmem
    obtain ⟨i, hi, heq⟩ := List.mem_map.1 hmem
    have hs : s = (bm25GetScores p (docs.map pyTokens) (pyTokens q)).getD i 0 :=
      (congrArg Prod.snd heq).symm
    rw [hs]
    simpa using (List.mem_filter.1 hi).2
  · intro p docs q tk h
    have hz : ∀ x ∈ bm25GetScores p (docs.map pyTokens) (pyTokens q), x = 0 := by
      intro x hx
      simp only [bm25GetScores] at hx
      obtain ⟨dT, hdT, rfl⟩ := List.mem_map.1 hx
      obtain ⟨dt, hdt, rfl⟩ := List.mem_map.1 hdT
      exact bm25DocScore_of_no_overlap p _ (pyTokens q) (pyTokens dt)
        fun t ht => h dt hdt t ht
    simp only [retrieve_sparse]
    have hfil : ((argsortDesc (bm25GetScores p (docs.map pyTokens) (pyTokens q))).take
        tk).filter (fun idx =>
          0 < (bm25GetScores p (docs.map pyTokens) (pyTokens q)).getD idx 0) = [] := by
      rw [List.filter_eq_nil_iff]
      intro i hi
      rw [getD_eq_zero_of_all_zero _ hz i]
      simp
    rw [hfil]
    rfl

/-- C10 witness: a query matching one document yields the positive score 1;
a query sharing no token with the corpus yields the empty result. -/
theorem claim_c10_witness :
    (0:ℚ) < 1 ∧ retrieve_sparse pEx ["hello world"] "zebra" 5 = [] := by
  constructor
  · have he : retrieve_sparse pEx ["apple pie"] "apple" 5 = [("apple pie", (1:ℚ))] := by
      with_unfolding_all rfl
    have hmem : ("apple pie", (1:ℚ)) ∈ retrieve_sparse pEx ["apple pie"] "apple" 5 := by
      rw [he]
      exact List.mem_singleton.2 rfl
    exact claim_c10_sparse_positive.1 pEx ["apple pie"] "apple" 5 "apple pie" 1 hmem
  · exact claim_c10_sparse_positive.2 pEx ["hello world"] "zebra" 5 (by decide)

end Dashboard
